import Mathlib

/-!
Shallow embedding of the sync engine of `src/src-tauri/src/lib.rs` (a tray
utility that fetches the Bing image of the day and applies it as wallpaper),
together with theorems settling the frozen claims about its specification.

External effects (HTTP, filesystem, wallpaper application, the settings
store, clocks) are modelled by explicit environment records whose fields
give the outcome of each fallible call, in the order the code performs
them.  Mutex-guarded state is modelled by explicit state passing; mutex
poisoning (which the code surfaces as a string error) is outside the model,
matching the spec's treatment of LockError as a non-occurring internal
invariant violation.
-/

namespace Bingscape

/-- `SyncStatus` of lib.rs lines 27-34: the single most-recent outcome record. -/
structure SyncStatus where
  last_url : Option String
  last_saved_path : Option String
  last_result : Option String
  last_error : Option String
  last_run : Option String
deriving Repr, DecidableEq

/-- All fields empty, as `#[derive(Default)]` produces at process start. -/
def SyncStatus.empty : SyncStatus :=
  { last_url := none, last_saved_path := none, last_result := none,
    last_error := none, last_run := none }

/-- `AppSettings` of lib.rs lines 36-41. -/
structure AppSettings where
  auto_enabled : Bool
  apply_all : Bool
  resolution : String
deriving Repr, DecidableEq

/-- `impl Default for AppSettings` (lib.rs lines 43-51). -/
def AppSettings.defaultSettings : AppSettings :=
  { auto_enabled := true, apply_all := true, resolution := "UHD" }

/-- The in-memory part of `AppState` (lib.rs lines 19-25): the two atomic
booleans and the mutex-guarded resolution string. -/
structure AppStateMem where
  auto_enabled : Bool
  apply_all : Bool
  resolution : String
deriving Repr, DecidableEq

/-- `AppState::default()`: `#[derive(Default)]` gives `AtomicBool::new(false)`
for both flags and the empty string for the resolution. -/
def AppStateMem.derivedDefault : AppStateMem :=
  { auto_enabled := false, apply_all := false, resolution := "" }

/-! ### Character-list helpers

The filename extraction and the resolution rewrite of `perform_sync` work on
the path string; we embed them over `List Char`, with `String` wrappers.
-/

/-- `leadsWith sep l` holds when `sep` is an initial segment of `l`
(Rust's `starts_with` / the per-position test of `str::split`). -/
def leadsWith : List Char → List Char → Bool
  | [], _ => true
  | _ :: _, [] => false
  | c :: cs, d :: ds => c = d && leadsWith cs ds

/-- `occursIn sep l`: some suffix of `l` starts with `sep` (substring test). -/
def occursIn (sep : List Char) : List Char → Bool
  | [] => leadsWith sep []
  | c :: cs => leadsWith sep (c :: cs) || occursIn sep cs

/-- Remainder after the first occurrence of the (nonempty) separator `sep`,
or `none` when `sep` does not occur: the scan underlying Rust's
`str::split(sep).nth(1)`. -/
def afterFirst (sep : List Char) : List Char → Option (List Char)
  | [] => none
  | c :: cs =>
    if leadsWith sep (c :: cs) then some (List.drop (sep.length - 1) cs)
    else afterFirst sep cs

/-- Characters before the next occurrence of `sep` (the end of the second
piece of `str::split(sep)`). -/
def takeUntilOcc (sep : List Char) : List Char → List Char
  | [] => []
  | c :: cs =>
    if leadsWith sep (c :: cs) then [] else c :: takeUntilOcc sep cs

/-- Length of the match of the regex `_\d+x\d+\.jpg` (lib.rs line 184) at the
head of the list, if any.  `\d+` is greedy, and since the characters after
each digit run (`x`, `.`) are not digits, the greedy maximal run is the only
possible match, so the match length is determined.  (Rust's `\d` is the
Unicode digit class; URL paths here are ASCII, so `Char.isDigit` is faithful.) -/
def matchLenAt : List Char → Option Nat
  | '_' :: rest =>
    let ds := rest.takeWhile Char.isDigit
    if ds.length = 0 then none
    else
      match rest.drop ds.length with
      | 'x' :: rest2 =>
        let ds2 := rest2.takeWhile Char.isDigit
        if ds2.length = 0 then none
        else
          match rest2.drop ds2.length with
          | '.' :: 'j' :: 'p' :: 'g' :: _ => some (6 + ds.length + ds2.length)
          | _ => none
      | _ => none
  | _ => none

/-- `Regex::replace`: replace the leftmost match of `_\d+x\d+\.jpg` with
`repl`; the string is returned unchanged when there is no match. -/
def replFirst (repl : List Char) : List Char → List Char
  | [] => []
  | c :: cs =>
    match matchLenAt (c :: cs) with
    | some n => repl ++ List.drop n (c :: cs)
    | none => c :: replFirst repl cs

/-- Position and length of the leftmost match of `_\d+x\d+\.jpg`, if any
(specification-side view of the same scan, used to characterise `replFirst`). -/
def firstMatch : List Char → Option (Nat × Nat)
  | [] => none
  | c :: cs =>
    match matchLenAt (c :: cs) with
    | some n => some (0, n)
    | none => (firstMatch cs).map (fun p => (p.1 + 1, p.2))

/-! ### Image resolver -/

/-- The resolution rewrite of `perform_sync` (lib.rs lines 181-192): for
resolution `"UHD"` the first `_<w>x<h>.jpg` in the path is rewritten to
`_UHD.jpg`, for `"1920x1080"` to `_1920x1080.jpg`, and any other resolution
string leaves the path untouched. -/
def modifyPathL (resolution : String) (p : List Char) : List Char :=
  if resolution = "UHD" then replFirst ("_UHD.jpg".toList) p
  else if resolution = "1920x1080" then replFirst ("_1920x1080.jpg".toList) p
  else p

def modifyPath (resolution path : String) : String :=
  String.mk (modifyPathL resolution path.toList)

/-- Absolute URL construction (lib.rs line 194). -/
def imageUrlOf (modifiedPath : String) : String :=
  "https://www.bing.com" ++ modifiedPath

/-- Filename extraction of `perform_sync` (lib.rs lines 206-219):
`modified_path.split("id=").nth(1)` is the piece between the first and second
occurrence of `"id="`; from it, `split('&').next()` keeps the characters
before the first `'&'` (this `next()` always yields a piece, so the code's
inner `else` branch is unreachable and the constant prefix `OHR.` is then
stripped when present.  When `"id="` does not occur at all the fixed default
name is used. -/
def extractFilenameL (p : List Char) : List Char :=
  match afterFirst ("id=".toList) p with
  | some idParam =>
    let namePart := (takeUntilOcc ("id=".toList) idParam).takeWhile (· ≠ '&')
    if leadsWith ("OHR.".toList) namePart then namePart.drop 4 else namePart
  | none => "bing_wallpaper.jpg".toList

def extractFilename (p : String) : String :=
  String.mk (extractFilenameL p.toList)

/-! ### Sync engine

`perform_sync` (lib.rs lines 159-246).  Each external call is a field of
`SyncEnv` giving its outcome; the fields are listed in the order the code
performs the calls.  The metadata response is modelled by the outcome of the
JSON field chain `images[0].url`: `Except.error` for a network or JSON
decoding failure, `Except.ok none` for a response without that field
(the "Unexpected Bing API response" case), `Except.ok (some p)` for a
response carrying relative path `p`. -/

structure SyncEnv where
  buildClient : Except String Unit
  fetchMeta : Except String (Option String)
  cacheDir : Except String String
  createDir : Except String Unit
  download : Except String Unit
  writeFile : Except String Unit
  applyWallpaper : Except String Unit
  now : String

/-- The result message written on success (lib.rs lines 236-240). -/
def applyResultMsg (applyAll : Bool) : String :=
  if applyAll then "Applied to all displays" else "Applied to main display"

/-- The success status write (lib.rs lines 233-242): clone the current shared
record, then set every one of its five fields. -/
def finishStatus (cur : SyncStatus) (url savedPath : String) (applyAll : Bool)
    (now : String) : SyncStatus :=
  { cur with
    last_url := some url
    last_saved_path := some savedPath
    last_result := some (applyResultMsg applyAll)
    last_error := none
    last_run := some now }

/-- The fully-recomputed record a successful cycle writes (specification-side
view: no field depends on the previous record). -/
def successRecord (url savedPath : String) (applyAll : Bool) (now : String) :
    SyncStatus :=
  { last_url := some url, last_saved_path := some savedPath,
    last_result := some (applyResultMsg applyAll), last_error := none,
    last_run := some now }

/-- The `Result` computed by `perform_sync` for prior shared status `cur`:
every `?` in the code is a monadic bind here, in source order.  `save_path`
models `cache_dir.join(filename)` for the relative filenames this code
produces. -/
def performSyncResult (env : SyncEnv) (resolution : String) (cur : SyncStatus)
    (applyAll : Bool) : Except String SyncStatus := do
  let _ ← env.buildClient
  let metaPath ← env.fetchMeta
  let imagePath ←
    match metaPath with
    | some p => Except.ok p
    | none => Except.error "Unexpected Bing API response"
  let modifiedPath := modifyPath resolution imagePath
  let imageUrl := imageUrlOf modifiedPath
  let cacheDir ← env.cacheDir
  let _ ← env.createDir
  let filename := extractFilename modifiedPath
  let savePath := cacheDir ++ "/" ++ filename
  let _ ← env.download
  let _ ← env.writeFile
  let _ ← env.applyWallpaper
  Except.ok (finishStatus cur imageUrl savePath applyAll env.now)

/-- `perform_sync` as a state transformer on the shared `SyncStatus`: the only
mutation of the shared record is the single replace after the last `?`, so on
any error the shared record is exactly the prior one. -/
def performSync (env : SyncEnv) (resolution : String) (cur : SyncStatus)
    (applyAll : Bool) : Except String SyncStatus × SyncStatus :=
  match performSyncResult env resolution cur applyAll with
  | Except.ok st => (Except.ok st, st)
  | Except.error e => (Except.error e, cur)

/-- The foreground command `sync_wallpaper` (lib.rs lines 53-56): it returns
`perform_sync`'s result unchanged and performs no further status mutation. -/
def syncWallpaper (env : SyncEnv) (resolution : String) (cur : SyncStatus)
    (applyAll : Bool) : Except String SyncStatus × SyncStatus :=
  performSync env resolution cur applyAll

/-- The startup sync (lib.rs lines 340-343): `let _ = perform_sync(..)`
discards the result; only `perform_sync`'s own status mutation remains. -/
def startupSync (env : SyncEnv) (resolution : String) (cur : SyncStatus)
    (applyAll : Bool) : SyncStatus :=
  (performSync env resolution cur applyAll).2

/-! ### Scheduler -/

/-- What one tick of the background loop (lib.rs lines 353-368) observes:
the values the two atomics hold at that instant, and the outcome environment
of the sync it may dispatch. -/
structure TickInput where
  autoEnabled : Bool
  applyAll : Bool
  env : SyncEnv

/-- One iteration of the background loop body: `background_state` is loaded
at the tick; when false nothing runs; when true one `perform_sync` is
dispatched, and on its failure the handler (lib.rs lines 359-364) sets only
`last_error` and `last_run` on the shared record.  The returned number counts
the `perform_sync` calls this tick makes. -/
def backgroundTick (t : TickInput) (resolution : String) (st : SyncStatus) :
    SyncStatus × Nat :=
  if t.autoEnabled then
    match performSyncResult t.env resolution st t.applyAll with
    | Except.ok st' => (st', 1)
    | Except.error err =>
      ({ st with last_error := some err, last_run := some t.env.now }, 1)
  else (st, 0)

/-- The background loop over a sequence of ticks, recording the per-tick
`perform_sync` call counts.  (In the code each tick's sync is dispatched on a
blocking task; the sequential composition models the per-tick behaviour the
claims address: gating, dispatch count and error recording.) -/
def schedulerRun (resolution : String) : List TickInput → SyncStatus →
    SyncStatus × List Nat
  | [], st => (st, [])
  | t :: ts, st =>
    let r := backgroundTick t resolution st
    let rest := schedulerRun resolution ts r.1
    (rest.1, r.2 :: rest.2)

/-! ### Settings commands -/

/-- Outcomes of the settings-store calls a mutator makes:
`app.store("settings.json")` (checked with `if let Ok`), `store.set` and
`store.save` (both discarded with `let _ =`). -/
structure StoreEnv where
  storeAvail : Bool
  setOk : Bool
  saveOk : Bool

/-- `set_auto_sync` (lib.rs lines 58-76): store both atomics, then
best-effort persist the full snapshot (reading the unchanged resolution),
and return `Ok(())`.  The third component records the snapshot handed to
`store.set` when the store opened, `none` otherwise. -/
def setAutoSync (env : StoreEnv) (st : AppStateMem) (enabled applyAll : Bool) :
    Except String Unit × AppStateMem × Option AppSettings :=
  let st' := { st with auto_enabled := enabled, apply_all := applyAll }
  let persisted :=
    if env.storeAvail then
      some { auto_enabled := enabled, apply_all := applyAll,
             resolution := st.resolution : AppSettings }
    else none
  (Except.ok (), st', persisted)

/-- `set_resolution` (lib.rs lines 96-112): replace the guarded resolution,
then best-effort persist the snapshot read from the current atomics. -/
def setResolution (env : StoreEnv) (st : AppStateMem) (resolution : String) :
    Except String Unit × AppStateMem × Option AppSettings :=
  let st' := { st with resolution := resolution }
  let persisted :=
    if env.storeAvail then
      some { auto_enabled := st.auto_enabled, apply_all := st.apply_all,
             resolution := resolution : AppSettings }
    else none
  (Except.ok (), st', persisted)

/-! ### Cache clearing -/

/-- The cache directory as the claims observe it: whether it exists and
which files it holds. -/
structure CacheFS where
  dirExists : Bool
  files : List String
deriving Repr, DecidableEq

/-- Outcomes of the filesystem calls of `clear_cache`. -/
structure CacheEnv where
  cacheDirRes : Except String String
  removeRes : Except String Unit
  createRes : Except String Unit

/-- `clear_cache` (lib.rs lines 114-128): locate the cache dir; if it exists,
remove it recursively and recreate it empty; otherwise report that it does
not exist and touch nothing.  (On a failed remove or create the on-disk state
is indeterminate; the claims only concern the paths where those calls
succeed, so the model leaves the state unchanged there.) -/
def clearCache (env : CacheEnv) (fs : CacheFS) :
    Except String String × CacheFS :=
  match env.cacheDirRes with
  | Except.error e => (Except.error ("Failed to locate cache dir: " ++ e), fs)
  | Except.ok _ =>
    if fs.dirExists then
      match env.removeRes with
      | Except.error e => (Except.error e, fs)
      | Except.ok _ =>
        match env.createRes with
        | Except.error e =>
          (Except.error e, { dirExists := false, files := [] })
        | Except.ok _ =>
          (Except.ok "Cache cleared successfully",
           { dirExists := true, files := [] })
    else (Except.ok "Cache directory does not exist", fs)

/-! ### The status race between overlapping cycles

A cycle's only interactions with the shared `SyncStatus` mutex on the success
path are one read-clone (lib.rs line 233) and one replace (line 243).  Two
overlapping cycles A and B are modelled by an arbitrary sequence of these four
operations; each write replaces the shared record with `finishStatus` of the
clone that call read and of that call's own url, path, flag and time. -/

/-- The per-call inputs of one cycle's status write. -/
structure CallParams where
  url : String
  savedPath : String
  applyAll : Bool
  now : String

inductive SyncOp where
  | readA : SyncOp
  | readB : SyncOp
  | writeA : SyncOp
  | writeB : SyncOp
deriving Repr, DecidableEq

/-- Shared record plus the clones the two calls hold. -/
structure RaceState where
  shared : SyncStatus
  cloneA : SyncStatus
  cloneB : SyncStatus

def stepOp (pa pb : CallParams) (s : RaceState) : SyncOp → RaceState
  | SyncOp.readA => { s with cloneA := s.shared }
  | SyncOp.readB => { s with cloneB := s.shared }
  | SyncOp.writeA =>
    { s with shared := finishStatus s.cloneA pa.url pa.savedPath pa.applyAll pa.now }
  | SyncOp.writeB =>
    { s with shared := finishStatus s.cloneB pb.url pb.savedPath pb.applyAll pb.now }

def execOps (pa pb : CallParams) (s : RaceState) : List SyncOp → RaceState
  | [] => s
  | o :: os => execOps pa pb (stepOp pa pb s o) os

/-- Which call performed the last write of the sequence (`true` for A). -/
def lastWriter : List SyncOp → Option Bool
  | [] => none
  | o :: os =>
    match lastWriter os with
    | some c => some c
    | none =>
      match o with
      | SyncOp.writeA => some true
      | SyncOp.writeB => some false
      | _ => none

/-! ### Startup settings load -/

/-- What the startup load (lib.rs lines 320-331) finds in the store:
whether `app.store("settings.json")` succeeded, and the stored
`app_settings` value — absent, present but failing to decode as
`AppSettings`, or decoded. -/
structure StartupStore where
  storeOk : Bool
  value : Option (Option AppSettings)

/-- The in-memory state after the startup load: a decoded stored value is
copied into the atomics and the resolution; in every other case (store
unavailable, key absent, decode failure) nothing is stored and the state
keeps the `#[derive(Default)]` values of `AppState`. -/
def startupState (store : StartupStore) : AppStateMem :=
  if store.storeOk then
    match store.value with
    | some (some s) =>
      { auto_enabled := s.auto_enabled, apply_all := s.apply_all,
        resolution := s.resolution }
    | _ => AppStateMem.derivedDefault
  else AppStateMem.derivedDefault

/-! ### Concrete environments and specification-side definitions -/

/-- A fully failing sync environment: the metadata request errors out. -/
def envNetFail : SyncEnv :=
  { buildClient := Except.ok (), fetchMeta := Except.error "network down",
    cacheDir := Except.ok "/tmp/cache", createDir := Except.ok (),
    download := Except.ok (), writeFile := Except.ok (),
    applyWallpaper := Except.ok (), now := "2026-10-12T00:00:00+00:00" }

/-- An all-successful sync environment around relative path `p`. -/
def envAllOk (p : String) : SyncEnv :=
  { buildClient := Except.ok (), fetchMeta := Except.ok (some p),
    cacheDir := Except.ok "/tmp/cache", createDir := Except.ok (),
    download := Except.ok (), writeFile := Except.ok (),
    applyWallpaper := Except.ok (), now := "2026-10-12T00:00:00+00:00" }

/-- Modelled from the spec: the claim's fallback filename, "the last path
segment of the URL, or a fixed default filename if that segment is empty". -/
def lastSegmentSpec (p : String) : String :=
  String.mk ((p.toList.reverse.takeWhile (· ≠ '/')).reverse)

/-- Modelled from the spec: the full fallback of the claim for paths without
the identifying parameter. -/
def specFallbackName (p : String) : String :=
  if lastSegmentSpec p = "" then "bing_wallpaper.jpg" else lastSegmentSpec p

/-- Suffix test over character lists (specification-side, for stating which
string ends in which token). -/
def trailsWith (suf l : List Char) : Bool :=
  leadsWith suf.reverse l.reverse

/-! ### Helper lemmas -/

/-- A cycle's success write fully recomputes the record: no field of the
prior (cloned) status survives `finishStatus`. -/
lemma finishStatus_eq_successRecord (cur : SyncStatus) (url savedPath : String)
    (applyAll : Bool) (now : String) :
    finishStatus cur url savedPath applyAll now =
      successRecord url savedPath applyAll now := rfl

/-- On an erroring cycle `perform_sync` returns the error and the shared
status is exactly the prior one. -/
lemma performSync_error {env : SyncEnv} {resolution : String}
    {cur : SyncStatus} {applyAll : Bool} {e : String}
    (h : performSyncResult env resolution cur applyAll = Except.error e) :
    performSync env resolution cur applyAll = (Except.error e, cur) := by
  simp [performSync, h]

/-- On a successful cycle `perform_sync` returns the written record and
stores that same record. -/
lemma performSync_ok {env : SyncEnv} {resolution : String}
    {cur : SyncStatus} {applyAll : Bool} {st' : SyncStatus}
    (h : performSyncResult env resolution cur applyAll = Except.ok st') :
    performSync env resolution cur applyAll = (Except.ok st', st') := by
  simp [performSync, h]

/-- A failing enabled tick records the error and the time onto the prior
record, touching nothing else, and makes exactly one sync call. -/
lemma backgroundTick_error {env : SyncEnv} {resolution : String}
    {st : SyncStatus} {applyAll : Bool} {e : String}
    (h : performSyncResult env resolution st applyAll = Except.error e) :
    backgroundTick ⟨true, applyAll, env⟩ resolution st =
      ({ st with last_error := some e, last_run := some env.now }, 1) := by
  simp [backgroundTick, h]

lemma envNetFail_result (resolution : String) (cur : SyncStatus)
    (applyAll : Bool) :
    performSyncResult envNetFail resolution cur applyAll =
      Except.error "network down" := rfl

/-! ### Claims -/

/-- C1, counterexample.  The claim says every failing cycle both returns the
error and records it into `SyncStatus.lastError` with `lastRun` updated,
regardless of trigger.  A failing foreground `sync_wallpaper` call refutes
this: the error is returned, but the shared status keeps `last_error = none`
and `last_run = none`. -/
theorem c1_cex :
    (syncWallpaper envNetFail "UHD" SyncStatus.empty true).1 =
        Except.error "network down" ∧
      (syncWallpaper envNetFail "UHD" SyncStatus.empty true).2.last_error =
        none ∧
      (syncWallpaper envNetFail "UHD" SyncStatus.empty true).2.last_run =
        none := by
  refine ⟨rfl, rfl, rfl⟩

/-- C1, amended: every failing cycle returns the error as the `Error` variant
of `perform_sync`'s result and leaves the shared SyncStatus untouched; the
error is recorded into `lastError` (with `lastRun` updated) only when the
cycle was dispatched by a scheduled background tick, whose handler does the
recording; the foreground command propagates the error without recording it,
and the startup sync discards the result entirely. -/
theorem c1_amended (env : SyncEnv) (resolution : String) (st : SyncStatus)
    (applyAll : Bool) (e : String)
    (h : performSyncResult env resolution st applyAll = Except.error e) :
    (syncWallpaper env resolution st applyAll).1 = Except.error e ∧
      (syncWallpaper env resolution st applyAll).2 = st ∧
      startupSync env resolution st applyAll = st ∧
      (backgroundTick ⟨true, applyAll, env⟩ resolution st).1.last_error =
        some e ∧
      (backgroundTick ⟨true, applyAll, env⟩ resolution st).1.last_run =
        some env.now := by
  have hp := performSync_error h
  have hb := backgroundTick_error h
  refine ⟨?_, ?_, ?_, ?_, ?_⟩
  · simp [syncWallpaper, hp]
  · simp [syncWallpaper, hp]
  · simp [startupSync, hp]
  · simp [hb]
  · simp [hb]

/-- C1, witness for the amended theorem at a concrete failing cycle. -/
theorem c1_amended_witness :
    (syncWallpaper envNetFail "UHD" SyncStatus.empty false).1 =
        Except.error "network down" ∧
      (backgroundTick ⟨true, false, envNetFail⟩ "UHD"
          SyncStatus.empty).1.last_error = some "network down" :=
  ⟨(c1_amended envNetFail "UHD" SyncStatus.empty false "network down" rfl).1,
   (c1_amended envNetFail "UHD" SyncStatus.empty false "network down"
      rfl).2.2.2.1⟩

/-- C2, confirmed: given a prior status with `lastUrl = some U` and
`lastSavedPath = some P`, a failing cycle preserves both while the scheduled
tick's handler sets `lastError` to the cycle's error message and `lastRun` to
the current time; and `perform_sync` itself leaves the whole record unchanged
on failure, so no failing cycle, however triggered, erases the record of the
last successful apply. -/
theorem c2_preserved (env : SyncEnv) (resolution : String) (st : SyncStatus)
    (applyAll : Bool) (e : String) (u p : String)
    (hu : st.last_url = some u) (hp : st.last_saved_path = some p)
    (h : performSyncResult env resolution st applyAll = Except.error e) :
    (backgroundTick ⟨true, applyAll, env⟩ resolution st).1.last_url =
        some u ∧
      (backgroundTick ⟨true, applyAll, env⟩ resolution st).1.last_saved_path =
        some p ∧
      (backgroundTick ⟨true, applyAll, env⟩ resolution st).1.last_error =
        some e ∧
      (backgroundTick ⟨true, applyAll, env⟩ resolution st).1.last_run =
        some env.now ∧
      (performSync env resolution st applyAll).2 = st := by
  have hb := backgroundTick_error h
  refine ⟨?_, ?_, ?_, ?_, ?_⟩
  · simp [hb, hu]
  · simp [hb, hp]
  · simp [hb]
  · simp [hb]
  · simp [performSync_error h]

/-- C2, witness: a concrete prior successful status survives a concrete
failing tick with only `lastError` and `lastRun` changed. -/
theorem c2_preserved_witness :
    (backgroundTick ⟨true, true, envNetFail⟩ "UHD"
        { last_url := some "https://www.bing.com/a.jpg",
          last_saved_path := some "/tmp/cache/a.jpg",
          last_result := some "Applied to all displays",
          last_error := none,
          last_run := some "2026-10-11T00:00:00+00:00" }).1.last_url =
      some "https://www.bing.com/a.jpg" :=
  (c2_preserved envNetFail "UHD"
    { last_url := some "https://www.bing.com/a.jpg",
      last_saved_path := some "/tmp/cache/a.jpg",
      last_result := some "Applied to all displays",
      last_error := none,
      last_run := some "2026-10-11T00:00:00+00:00" }
    true "network down" "https://www.bing.com/a.jpg" "/tmp/cache/a.jpg"
    rfl rfl rfl).1

lemma afterFirst_eq_none {sep l : List Char}
    (h : occursIn sep l = false) : afterFirst sep l = none := by
  induction l with
  | nil => rfl
  | cons c cs ih =>
    simp only [occursIn, Bool.or_eq_false_iff] at h
    simp [afterFirst, h.1, ih h.2]

/-- C3, counterexample.  The claim says a path without the `id=` parameter
yields the last path segment as filename; the code instead always uses the
fixed default.  The path `/images/foo.jpg` has no `id=`, its last segment is
the nonempty `foo.jpg`, yet the extracted filename is `bing_wallpaper.jpg`. -/
theorem c3_cex :
    occursIn ("id=".toList) ("/images/foo.jpg".toList) = false ∧
      specFallbackName "/images/foo.jpg" = "foo.jpg" ∧
      extractFilename "/images/foo.jpg" = "bing_wallpaper.jpg" ∧
      extractFilename "/images/foo.jpg" ≠ specFallbackName "/images/foo.jpg" := by
  refine ⟨by decide, by decide, by decide, by decide⟩

/-- C3, amended: for every resolved path in which the substring `id=` is
absent, the cache filename is always the fixed default `bing_wallpaper.jpg`
(there is no last-path-segment fallback); for paths containing `id=<NAME>&...`
the filename is the substring after the first `id=` up to the next `&`, with
the constant prefix `OHR.` stripped when present, as on the spec's example
path. -/
theorem c3_amended :
    (∀ p : String, occursIn ("id=".toList) p.toList = false →
        extractFilename p = "bing_wallpaper.jpg") ∧
      extractFilename "/th?id=OHR.LlamaDay_EN-US123_UHD.jpg&rf=x" =
        "LlamaDay_EN-US123_UHD.jpg" ∧
      extractFilename "/th?id=Plain_UHD.jpg&rf=x" = "Plain_UHD.jpg" := by
  refine ⟨?_, by decide, by decide⟩
  intro p h
  have hn : afterFirst ("id=".toList) p.toList = none := afterFirst_eq_none h
  unfold extractFilename extractFilenameL
  rw [hn]
  rfl

/-- C3, witness for the universally quantified default-name part of the
amended theorem, at a concrete `id=`-free path. -/
theorem c3_amended_witness :
    extractFilename "/gallery/today.png" = "bing_wallpaper.jpg" :=
  c3_amended.1 "/gallery/today.png" (by decide)

/-- C4, confirmed: when every step succeeds, `perform_sync` replaces the
shared status with the fully recomputed record — resolved URL, saved path,
the result message chosen by the `applyAll` argument, `last_error = none`,
`last_run = now` — independently of the prior record, and returns that same
record; the two result messages are distinct, so the string distinguishes
the two apply modes. -/
theorem c4_success (env : SyncEnv) (resolution : String) (st : SyncStatus)
    (applyAll : Bool) (p d : String)
    (h1 : env.buildClient = Except.ok ())
    (h2 : env.fetchMeta = Except.ok (some p))
    (h3 : env.cacheDir = Except.ok d)
    (h4 : env.createDir = Except.ok ())
    (h5 : env.download = Except.ok ())
    (h6 : env.writeFile = Except.ok ())
    (h7 : env.applyWallpaper = Except.ok ()) :
    performSync env resolution st applyAll =
        (Except.ok (successRecord (imageUrlOf (modifyPath resolution p))
            (d ++ "/" ++ extractFilename (modifyPath resolution p))
            applyAll env.now),
          successRecord (imageUrlOf (modifyPath resolution p))
            (d ++ "/" ++ extractFilename (modifyPath resolution p))
            applyAll env.now) ∧
      applyResultMsg true ≠ applyResultMsg false := by
  have hr : performSyncResult env resolution st applyAll =
      Except.ok (successRecord (imageUrlOf (modifyPath resolution p))
        (d ++ "/" ++ extractFilename (modifyPath resolution p))
        applyAll env.now) := by
    simp [performSyncResult, h1, h2, h3, h4, h5, h6, h7, bind, Except.bind,
      finishStatus_eq_successRecord]
  exact ⟨performSync_ok hr, by decide⟩

/-- C4, witness at a concrete all-successful environment. -/
theorem c4_success_witness :
    performSync (envAllOk "/th?id=OHR.Foo_1920x1080.jpg&rf=x") "UHD"
        SyncStatus.empty true =
      (Except.ok (successRecord "https://www.bing.com/th?id=OHR.Foo_UHD.jpg&rf=x"
          "/tmp/cache/Foo_UHD.jpg" true "2026-10-12T00:00:00+00:00"),
        successRecord "https://www.bing.com/th?id=OHR.Foo_UHD.jpg&rf=x"
          "/tmp/cache/Foo_UHD.jpg" true "2026-10-12T00:00:00+00:00") :=
  ((c4_success (envAllOk "/th?id=OHR.Foo_1920x1080.jpg&rf=x") "UHD"
      SyncStatus.empty true "/th?id=OHR.Foo_1920x1080.jpg&rf=x" "/tmp/cache"
      rfl rfl rfl rfl rfl rfl rfl).1).trans (by rfl)

lemma replFirst_eq (repl : List Char) (l : List Char) :
    replFirst repl l =
      match firstMatch l with
      | none => l
      | some (i, n) => l.take i ++ repl ++ l.drop (i + n) := by
  induction l with
  | nil => rfl
  | cons c cs ih =>
    cases hm : matchLenAt (c :: cs) with
    | some n => simp [replFirst, firstMatch, hm]
    | none =>
      cases hf : firstMatch cs with
      | none => simp [replFirst, firstMatch, hm, hf, ih]
      | some pr =>
        obtain ⟨i, n⟩ := pr
        have harith : i + 1 + n = i + n + 1 := by omega
        simp [replFirst, firstMatch, hm, hf, ih, harith,
          List.take_succ_cons, List.drop_succ_cons]

/-- C5, counterexample.  The claim says every raw path containing an embedded
`_<w>x<h>.jpg` suffix has that suffix rewritten to `_UHD.jpg` under UHD; the
code replaces only the leftmost regex match.  The path
`/a_1x1.jpg_2x2.jpg` ends with the matching suffix `_2x2.jpg`, yet UHD
resolution rewrites the earlier `_1x1.jpg` and the result does not end in
`_UHD.jpg`. -/
theorem c5_cex :
    trailsWith ("_2x2.jpg".toList) ("/a_1x1.jpg_2x2.jpg".toList) = true ∧
      matchLenAt ("_2x2.jpg".toList) = some 8 ∧
      modifyPath "UHD" "/a_1x1.jpg_2x2.jpg" = "/a_UHD.jpg_2x2.jpg" ∧
      trailsWith ("_UHD.jpg".toList)
        ((modifyPath "UHD" "/a_1x1.jpg_2x2.jpg").toList) = false := by
  refine ⟨by decide, by decide, by decide, by decide⟩

/-- C5, amended: resolving with UHD rewrites the leftmost occurrence of
`_<w>x<h>.jpg` in the raw path to `_UHD.jpg` (in particular, when the
leftmost occurrence is the path's suffix the resolved path ends in
`_UHD.jpg`); any resolution other than the two fixed tokens, in particular
Native, leaves the raw path unmodified; and the absolute URL is the fixed
provider host prefix concatenated with the (possibly rewritten) path. -/
theorem c5_amended :
    (∀ p : List Char, modifyPathL "UHD" p =
        (match firstMatch p with
          | none => p
          | some (i, n) => p.take i ++ ("_UHD.jpg".toList) ++ p.drop (i + n))) ∧
      (∀ (P : String) (i n : Nat), firstMatch P.toList = some (i, n) →
          i + n = P.toList.length →
          (modifyPath "UHD" P).toList =
            P.toList.take i ++ ("_UHD.jpg".toList)) ∧
      (∀ P : String, modifyPath "Native" P = P) ∧
      (∀ mp : String, imageUrlOf mp = "https://www.bing.com" ++ mp) := by
  have huhd : ∀ p : List Char, modifyPathL "UHD" p =
      (match firstMatch p with
        | none => p
        | some (i, n) => p.take i ++ ("_UHD.jpg".toList) ++ p.drop (i + n)) := by
    intro p
    simp [modifyPathL, replFirst_eq]
  refine ⟨huhd, ?_, ?_, ?_⟩
  · intro P i n hf hlen
    have hdrop : List.drop (i + n) P.toList = [] := by
      rw [hlen]
      simp
    have h1 := huhd P.toList
    simp only [hf, hdrop, List.append_nil] at h1
    exact h1
  · intro P
    rfl
  · intro mp
    rfl

/-- C5, witness for the suffix case of the amended theorem: the spec's own
example path, whose unique match is its suffix. -/
theorem c5_amended_witness :
    (modifyPath "UHD" "/x/Foo_1920x1080.jpg").toList =
      ("/x/Foo_1920x1080.jpg".toList.take 6) ++ ("_UHD.jpg".toList) :=
  c5_amended.2.1 "/x/Foo_1920x1080.jpg" 6 14 (by decide) (by decide)

lemma backgroundTick_count (t : TickInput) (resolution : String)
    (st : SyncStatus) :
    (backgroundTick t resolution st).2 = if t.autoEnabled then 1 else 0 := by
  cases ht : t.autoEnabled
  · simp [backgroundTick, ht]
  · cases hr : performSyncResult t.env resolution st t.applyAll <;>
      simp [backgroundTick, ht, hr]

/-- C6, confirmed: each tick of the background loop reads the current
`autoEnabled` value at that moment — over any sequence of per-tick flag
values the dispatch counts are exactly one sync per enabled tick and none
per disabled tick; a disabled tick leaves the status untouched and the loop
continues; and an enabled tick makes exactly one `perform_sync` call whether
it succeeds or fails, so a failed cycle is not retried before the next
scheduled tick. -/
theorem c6_scheduler :
    (∀ (resolution : String) (ts : List TickInput) (st : SyncStatus),
        (schedulerRun resolution ts st).2 =
          ts.map (fun t => if t.autoEnabled then 1 else 0)) ∧
      (∀ (t : TickInput) (resolution : String) (st : SyncStatus),
          t.autoEnabled = false → backgroundTick t resolution st = (st, 0)) ∧
      (∀ (t : TickInput) (resolution : String) (st : SyncStatus),
          t.autoEnabled = true → (backgroundTick t resolution st).2 = 1) := by
  refine ⟨?_, ?_, ?_⟩
  · intro resolution ts
    induction ts with
    | nil => intro st; rfl
    | cons t ts ih =>
      intro st
      show (backgroundTick t resolution st).2 ::
          (schedulerRun resolution ts (backgroundTick t resolution st).1).2 = _
      rw [backgroundTick_count, ih]
      rfl
  · intro t resolution st ht
    simp [backgroundTick, ht]
  · intro t resolution st ht
    cases hr : performSyncResult t.env resolution st t.applyAll <;>
      simp [backgroundTick, ht, hr]

/-- C6, witness: a disabled then an enabled (failing) tick dispatch zero and
one sync respectively. -/
theorem c6_scheduler_witness :
    (schedulerRun "UHD" [⟨false, true, envNetFail⟩, ⟨true, true, envNetFail⟩]
        SyncStatus.empty).2 = [0, 1] ∧
      backgroundTick ⟨false, true, envNetFail⟩ "UHD" SyncStatus.empty =
        (SyncStatus.empty, 0) :=
  ⟨(c6_scheduler.1 "UHD" [⟨false, true, envNetFail⟩, ⟨true, true, envNetFail⟩]
      SyncStatus.empty).trans (by rfl),
   c6_scheduler.2.1 ⟨false, true, envNetFail⟩ "UHD" SyncStatus.empty rfl⟩

/-- C7, confirmed: `clear_cache` on a non-existent cache directory returns
the "does not exist" message and leaves the filesystem untouched (so still
no directory); on an existing directory, empty or not, it removes and
recreates it, returning the "cleared" message and leaving an empty existing
directory. -/
theorem c7_clearCache (env : CacheEnv) (fs : CacheFS) (d : String)
    (h1 : env.cacheDirRes = Except.ok d)
    (h2 : env.removeRes = Except.ok ())
    (h3 : env.createRes = Except.ok ()) :
    (fs.dirExists = false →
        clearCache env fs =
          (Except.ok "Cache directory does not exist", fs)) ∧
      (fs.dirExists = true →
        clearCache env fs =
          (Except.ok "Cache cleared successfully",
            { dirExists := true, files := [] })) := by
  constructor
  · intro hd
    simp [clearCache, h1, hd]
  · intro hd
    simp [clearCache, h1, h2, h3, hd]

/-- C7, witness at a missing directory and at a non-empty existing one. -/
theorem c7_clearCache_witness :
    clearCache ⟨Except.ok "/tmp/cache", Except.ok (), Except.ok ()⟩
        ⟨false, []⟩ =
        (Except.ok "Cache directory does not exist", ⟨false, []⟩) ∧
      clearCache ⟨Except.ok "/tmp/cache", Except.ok (), Except.ok ()⟩
        ⟨true, ["a.jpg", "b.jpg"]⟩ =
        (Except.ok "Cache cleared successfully", ⟨true, []⟩) :=
  ⟨(c7_clearCache ⟨Except.ok "/tmp/cache", Except.ok (), Except.ok ()⟩
      ⟨false, []⟩ "/tmp/cache" rfl rfl rfl).1 rfl,
   (c7_clearCache ⟨Except.ok "/tmp/cache", Except.ok (), Except.ok ()⟩
      ⟨true, ["a.jpg", "b.jpg"]⟩ "/tmp/cache" rfl rfl rfl).2 rfl⟩

/-- C8, confirmed: both settings mutators return success for every outcome of
the settings store — unavailable store, failed write, failed save — and the
in-memory state reflects the request: `set_auto_sync` installs the two
requested flags (keeping the resolution) and `set_resolution` installs the
requested resolution (keeping the flags). -/
theorem c8_mutators (env : StoreEnv) (st : AppStateMem)
    (enabled applyAll : Bool) (resolution : String) :
    (setAutoSync env st enabled applyAll).1 = Except.ok () ∧
      (setAutoSync env st enabled applyAll).2.1 =
        { auto_enabled := enabled, apply_all := applyAll,
          resolution := st.resolution } ∧
      (setResolution env st resolution).1 = Except.ok () ∧
      (setResolution env st resolution).2.1 =
        { auto_enabled := st.auto_enabled, apply_all := st.apply_all,
          resolution := resolution } :=
  ⟨rfl, rfl, rfl, rfl⟩

lemma execOps_no_write {pa pb : CallParams} {ops : List SyncOp}
    (h : lastWriter ops = none) (s : RaceState) :
    (execOps pa pb s ops).shared = s.shared := by
  induction ops generalizing s with
  | nil => rfl
  | cons o os ih =>
    cases hlo : lastWriter os with
    | some c => simp [lastWriter, hlo] at h
    | none =>
      cases o with
      | readA => exact ih hlo _
      | readB => exact ih hlo _
      | writeA => simp [lastWriter, hlo] at h
      | writeB => simp [lastWriter, hlo] at h

/-- C9, confirmed: for any interleaving of the status reads and the status
writes of two overlapping cycles, the final shared SyncStatus is exactly the
fully recomputed record of whichever cycle wrote last — every field comes
from that one cycle, none from the other or from the prior record. -/
theorem c9_last_writer_wins (pa pb : CallParams) (s : RaceState)
    (ops : List SyncOp) (c : Bool) (h : lastWriter ops = some c) :
    (execOps pa pb s ops).shared =
      (if c then successRecord pa.url pa.savedPath pa.applyAll pa.now
        else successRecord pb.url pb.savedPath pb.applyAll pb.now) := by
  induction ops generalizing s with
  | nil => cases h
  | cons o os ih =>
    cases hlo : lastWriter os with
    | some c' =>
      have hcc : c' = c := by
        simpa [lastWriter, hlo] using h
      subst hcc
      exact ih _ hlo
    | none =>
      cases o with
      | readA => simp [lastWriter, hlo] at h
      | readB => simp [lastWriter, hlo] at h
      | writeA =>
        have hc : true = c := by simpa [lastWriter, hlo] using h
        subst hc
        show (execOps pa pb (stepOp pa pb s SyncOp.writeA) os).shared = _
        rw [execOps_no_write hlo]
        simp [stepOp, finishStatus_eq_successRecord]
      | writeB =>
        have hc : false = c := by simpa [lastWriter, hlo] using h
        subst hc
        show (execOps pa pb (stepOp pa pb s SyncOp.writeB) os).shared = _
        rw [execOps_no_write hlo]
        simp [stepOp, finishStatus_eq_successRecord]

/-- C9, witness: both cycles read first, then A writes, then B writes; the
final status is B's complete record. -/
theorem c9_last_writer_wins_witness :
    (execOps ⟨"uA", "pA", true, "tA"⟩ ⟨"uB", "pB", false, "tB"⟩
        ⟨SyncStatus.empty, SyncStatus.empty, SyncStatus.empty⟩
        [SyncOp.readA, SyncOp.readB, SyncOp.writeA, SyncOp.writeB]).shared =
      successRecord "uB" "pB" false "tB" :=
  (c9_last_writer_wins ⟨"uA", "pA", true, "tA"⟩ ⟨"uB", "pB", false, "tB"⟩
    ⟨SyncStatus.empty, SyncStatus.empty, SyncStatus.empty⟩
    [SyncOp.readA, SyncOp.readB, SyncOp.writeA, SyncOp.writeB] false
    rfl).trans (by rfl)

/-- C10, divergence evidence.  The claim (and the unused
`impl Default for AppSettings`) says a startup with no stored settings, or an
unparseable one, begins with `autoEnabled = true`, `applyAll = true`,
`resolution = "UHD"`.  The startup load leaves the state at the derived
`AppState` defaults instead — `false`, `false`, `""` — in all three
default-relevant store outcomes, and that state differs from the documented
default settings. -/
theorem c10_defaults_unused :
    startupState ⟨true, none⟩ = AppStateMem.derivedDefault ∧
      startupState ⟨true, some none⟩ = AppStateMem.derivedDefault ∧
      startupState ⟨false, none⟩ = AppStateMem.derivedDefault ∧
      AppStateMem.derivedDefault =
        { auto_enabled := false, apply_all := false, resolution := "" } ∧
      AppSettings.defaultSettings =
        { auto_enabled := true, apply_all := true, resolution := "UHD" } ∧
      AppStateMem.derivedDefault ≠
        { auto_enabled := AppSettings.defaultSettings.auto_enabled,
          apply_all := AppSettings.defaultSettings.apply_all,
          resolution := AppSettings.defaultSettings.resolution } :=
  ⟨rfl, rfl, rfl, rfl, rfl, by decide⟩

end Bingscape
